import Mathlib

/-!
A verification development for the startup-monitor repository
(`monitor/startup_monitor.go`).  The Go code is shallowly embedded:

* the filesystem is a finite map from paths to nodes (file / directory /
  symlink) together with the listing returned by `ReadDir` on the static
  pod resources directory;
* every mutating call (`Remove`, `Symlink`, `WriteFile`) is recorded in a
  trace, whether or not it succeeds, so frame properties ("no filesystem
  mutation") can be stated as an empty trace plus state equality;
* Go's `strconv.Atoi` and `strings.Split` are modelled character by
  character (`goAtoi`, `goSplit`); integer overflow of `Atoi` is ignored
  since revisions are small;
* `time.Time` is modelled as `Nat`; the zero value of `monitorTimeStamp`
  is `Option.none`; `uuid.NewUUID` is modelled by a `newUID` parameter
  supplied by the environment.
-/

namespace StartupMonitorModel

/-- One entry of a directory listing, mirroring the `os.FileInfo` data the
Go code consumes: a name and an is-directory flag. -/
structure FileInfo where
  name : String
  isDir : Bool
deriving DecidableEq, Repr

/-- A pod descriptor, reduced to the fields `startup_monitor.go` consumes
or produces: `metadata.name`, `metadata.labels`, `metadata.annotations`
(`none` models a nil map) and `metadata.uid`. -/
structure Pod where
  name : String
  labels : List (String × String)
  annotations : Option (List (String × String))
  uid : Nat
deriving DecidableEq, Repr

/-- Content of a regular file: either a manifest that `resourceread.ReadPodV1`
parses successfully, or bytes it rejects. -/
inductive Content where
  | pod (p : Pod)
  | malformed
deriving DecidableEq, Repr

/-- A filesystem node: regular file, directory, or symbolic link. -/
inductive Node where
  | file (c : Content)
  | dir
  | symlink (target : String)
deriving DecidableEq, Repr

/-- The filesystem state seen through the `ioInterface`: a path-keyed
association list of nodes, plus the listing `ReadDir` returns for the
static pod resources directory. -/
structure FS where
  entries : List (String × Node)
  listing : List FileInfo
deriving DecidableEq, Repr

/-- Errors surfaced by the filesystem and by the monitor.  `notExist` is
the class of errors recognised by `os.IsNotExist`; every other error is a
message. -/
inductive Err where
  | notExist
  | msg (s : String)
deriving DecidableEq, Repr

/-- A mutating filesystem call, as recorded in a trace (recorded at the
call site, whether or not the call succeeds). -/
inductive MutOp where
  | remove (p : String)
  | symlink (oldname newname : String)
  | write (p : String)
deriving DecidableEq, Repr

instance instDecEqExcept {α β : Type} [DecidableEq α] [DecidableEq β] :
    DecidableEq (Except α β) := fun x y =>
  match x, y with
  | Except.ok a, Except.ok b =>
    if h : a = b then isTrue (by rw [h]) else isFalse (by simp [h])
  | Except.error a, Except.error b =>
    if h : a = b then isTrue (by rw [h]) else isFalse (by simp [h])
  | Except.ok _, Except.error _ => isFalse (by simp)
  | Except.error _, Except.ok _ => isFalse (by simp)

/-- Result of running one of the monitor's filesystem-mutating routines:
the final filesystem, the trace of mutating calls, and the returned
error, if any. -/
structure OpResult where
  fs : FS
  trace : List MutOp
  res : Except Err Unit
deriving DecidableEq, Repr

/-- Which branch of `sync` acted on a tick. -/
inductive Action where
  | none
  | promoted
  | fellBack
deriving DecidableEq, Repr

/-- Association-list lookup, modelling Go map indexing (`m[k]` with the
`, found` form). -/
def lookupAssoc (l : List (String × String)) (k : String) : Option String :=
  match l.find? (fun e => e.1 == k) with
  | Option.none => Option.none
  | some e => some e.2

/-- Association-list insert/overwrite, modelling Go map assignment
`m[k] = v` (Go maps are unordered, so any key-unique representation is
faithful; the assigned key is placed first). -/
def insertAssoc (l : List (String × String)) (k v : String) : List (String × String) :=
  (k, v) :: l.filter (fun e => !(e.1 == k))

/-- Index of the first occurrence of `sep` in `s`, if any. -/
def firstOcc (s sep : List Char) : Option Nat :=
  if sep.isPrefixOf s then some 0
  else
    match s with
    | [] => Option.none
    | _ :: t => (firstOcc t sep).map (· + 1)

/-- Split `s` around every non-overlapping occurrence of `sep`, scanning
left to right, as Go's `strings.Split` does for a non-empty separator
(the monitor only ever splits on `targetName + "-pod-"`, which is never
empty).  Recursion is by fuel so that the definition reduces in the
kernel; every step consumes at least `sep.length ≥ 1` characters, so
`s.length + 1` fuel always suffices (`goSplitCore_fuel_irrelevant`). -/
def goSplitCore (sep : List Char) : Nat → List Char → List (List Char)
  | 0, s => [s]
  | fuel + 1, s =>
    if sep = [] then [s]
    else
      match firstOcc s sep with
      | Option.none => [s]
      | some i => s.take i :: goSplitCore sep fuel (s.drop (i + sep.length))

/-- Go `strings.Split`. -/
def goSplit (s sep : String) : List String :=
  (goSplitCore sep.data (s.data.length + 1) s.data).map (fun l => String.mk l)

/-- Go `strings.HasPrefix`. -/
def goStartsWith (s pre : String) : Bool :=
  pre.data.isPrefixOf s.data

/-- Go `strconv.Atoi`: optional sign followed by at least one decimal
digit (int-range overflow is not modelled; revisions are small). -/
def goAtoi (s : String) : Except Err Int :=
  match s.data with
  | [] => Except.error (Err.msg ("strconv.Atoi: parsing " ++ s ++ ": invalid syntax"))
  | c :: cs =>
    let signedDigits : Bool × List Char :=
      if c = '-' then (true, cs)
      else if c = '+' then (false, cs)
      else (false, c :: cs)
    if signedDigits.2 = [] then
      Except.error (Err.msg ("strconv.Atoi: parsing " ++ s ++ ": invalid syntax"))
    else if signedDigits.2.all Char.isDigit then
      let n : Nat := signedDigits.2.foldl (fun acc d => acc * 10 + (d.toNat - 48)) 0
      Except.ok (if signedDigits.1 then -(n : Int) else (n : Int))
    else
      Except.error (Err.msg ("strconv.Atoi: parsing " ++ s ++ ": invalid syntax"))

/-- Go `path.Join` for the already-clean paths the monitor builds. -/
def pathJoin (a b : String) : String :=
  a ++ "/" ++ b

/-- Raw lookup of a path (does not follow symlinks), like `os.Lstat`. -/
def FS.lookup (fs : FS) (p : String) : Option Node :=
  match fs.entries.find? (fun e => e.1 == p) with
  | Option.none => Option.none
  | some e => some e.2

/-- Resolve a path, following at most one symbolic link, as `os.Stat`
and `ioutil.ReadFile` do (longer link chains do not arise: the monitor
only ever links to regular manifest files). -/
def FS.resolve (fs : FS) (p : String) : Option Node :=
  match fs.lookup p with
  | some (Node.symlink t) =>
    match fs.lookup t with
    | some (Node.symlink _) => Option.none
    | other => other
  | other => other

/-- `os.Stat`: follows symlinks; not-found is the `os.IsNotExist` error. -/
def FS.stat (fs : FS) (p : String) : Except Err FileInfo :=
  match fs.resolve p with
  | some Node.dir => Except.ok { name := p, isDir := true }
  | some (Node.file _) => Except.ok { name := p, isDir := false }
  | _ => Except.error Err.notExist

/-- `ioutil.ReadFile`: follows symlinks, errors on directories and on
missing files. -/
def FS.readFile (fs : FS) (p : String) : Except Err Content :=
  match fs.resolve p with
  | some (Node.file c) => Except.ok c
  | some Node.dir => Except.error (Err.msg ("read " ++ p ++ ": is a directory"))
  | _ => Except.error Err.notExist

/-- `os.Remove`: removes the named entry itself (does not follow
symlinks); errors with the `os.IsNotExist` class when absent. -/
def FS.remove (fs : FS) (p : String) : Except Err FS :=
  match fs.lookup p with
  | Option.none => Except.error Err.notExist
  | some _ =>
    Except.ok { fs with entries := fs.entries.filter (fun e => !(e.1 == p)) }

/-- `os.Symlink oldname newname`: creates a link at `newname`; fails if
anything already exists there. -/
def FS.symlink (fs : FS) (oldname newname : String) : Except Err FS :=
  match fs.lookup newname with
  | some _ => Except.error (Err.msg ("symlink " ++ newname ++ ": file exists"))
  | Option.none =>
    Except.ok { fs with entries := fs.entries ++ [(newname, Node.symlink oldname)] }

/-- `ioutil.WriteFile`: creates or truncates a regular file; fails on a
directory. -/
def FS.writeFile (fs : FS) (p : String) (c : Content) : Except Err FS :=
  match fs.lookup p with
  | some Node.dir => Except.error (Err.msg ("open " ++ p ++ ": is a directory"))
  | some _ =>
    Except.ok { fs with entries := fs.entries.map (fun e => if e.1 == p then (p, Node.file c) else e) }
  | Option.none =>
    Except.ok { fs with entries := fs.entries ++ [(p, Node.file c)] }

/-- The in-memory monitor session state (`StartupMonitor` struct); the
injected health predicate and the clock are passed to `sync` as
arguments.  `monitorTimeStamp = none` models the zero `time.Time`. -/
structure StartupMonitor where
  probeInterval : Nat
  timeout : Nat
  revision : Int
  targetName : String
  manifestsPath : String
  staticPodResourcesPath : String
  monitorTimeStamp : Option Nat
deriving DecidableEq, Repr

/-- `lastKnownGoodManifestDstPath`. -/
def StartupMonitor.lastKnownGoodManifestDstPath (sm : StartupMonitor) : String :=
  pathJoin sm.staticPodResourcesPath (sm.targetName ++ "-last-known-good")

/-- `targetManifestPathFor`. -/
def StartupMonitor.targetManifestPathFor (sm : StartupMonitor) (revision : Int) : String :=
  pathJoin (pathJoin sm.staticPodResourcesPath (sm.targetName ++ "-pod-" ++ toString revision))
    (sm.targetName ++ "-pod.yaml")

/-- The Active Manifest path `path.Join(manifestsPath, targetName + "-pod.yaml")`,
built inline both in `loadRootTargetPodAndExtractRevision` and in
`fallbackToPreviousRevision`. -/
def StartupMonitor.rootTargetManifestPath (sm : StartupMonitor) : String :=
  pathJoin sm.manifestsPath (sm.targetName ++ "-pod.yaml")

/-- The Self-Marker path `path.Join(manifestsPath, targetName + "-startup-monitor.yaml")`. -/
def StartupMonitor.selfMarkerPath (sm : StartupMonitor) : String :=
  pathJoin sm.manifestsPath (sm.targetName ++ "-startup-monitor.yaml")

/-- The provenance annotation key added during fallback. -/
def fallbackForRevisionKey : String :=
  "startup-monitor.static-pods.openshift.io/fallback-for-revision"

/-- `fileExists`: stats the path; a directory is a hard error, absence is
`false`, a regular (or link-resolved) file is `true`. -/
def fileExists (fs : FS) (p : String) : Except Err Bool :=
  match fs.stat p with
  | Except.ok fileInfo =>
    if fileInfo.isDir then
      Except.error (Err.msg ("the provided path " ++ p ++ " is incorrect and points to a directory"))
    else Except.ok true
  | Except.error Err.notExist => Except.ok false
  | Except.error e => Except.error e

/-- `readTargetPod`: `ReadFile` then `resourceread.ReadPodV1`. -/
def readTargetPod (fs : FS) (filepath : String) : Except Err Pod :=
  match fs.readFile filepath with
  | Except.error e => Except.error e
  | Except.ok (Content.pod p) => Except.ok p
  | Except.ok Content.malformed =>
    Except.error (Err.msg ("unable to parse the pod manifest at " ++ filepath))

/-- The revision-label extraction performed by
`loadRootTargetPodAndExtractRevision` after the pod has been read
(startup_monitor.go lines 252-264). -/
def extractRevisionFromPod (currentTargetPod : Pod) : Except Err Int :=
  match lookupAssoc currentTargetPod.labels "revision" with
  | Option.none =>
    Except.error (Err.msg ("pod " ++ currentTargetPod.name ++ " doesn't have revision label"))
  | some revisionString =>
    if revisionString.length = 0 then
      Except.error (Err.msg ("empty revision label on " ++ currentTargetPod.name ++ " pod"))
    else
      match goAtoi revisionString with
      | Except.error _ =>
        Except.error (Err.msg ("invalid revision label on pod " ++ currentTargetPod.name ++ ": " ++ revisionString))
      | Except.ok revision =>
        if revision < 0 then
          Except.error (Err.msg ("invalid revision label on pod " ++ currentTargetPod.name ++ ": " ++ revisionString))
        else Except.ok revision

/-- `loadRootTargetPodAndExtractRevision`. -/
def StartupMonitor.loadRootTargetPodAndExtractRevision (sm : StartupMonitor) (fs : FS) :
    Except Err Int :=
  match readTargetPod fs sm.rootTargetManifestPath with
  | Except.error e => Except.error e
  | Except.ok currentTargetPod => extractRevisionFromPod currentTargetPod

/-- The revision-collecting loop of `findPreviousRevision`: skips
non-directories and names without the target prefix, errors when a
considered name does not split into exactly two parts around
`target ++ "-pod-"` or when its suffix is not `Atoi`-parseable, and
otherwise accumulates the parsed revisions in listing order. -/
def collectRevisions (target : String) : List FileInfo → Except Err (List Int)
  | [] => Except.ok []
  | f :: rest =>
    if !f.isDir then collectRevisions target rest
    else if !(goStartsWith f.name target) then collectRevisions target rest
    else
      match goSplit f.name (target ++ "-pod-") with
      | [_, suffixPart] =>
        match goAtoi suffixPart with
        | Except.error e => Except.error e
        | Except.ok revision => (collectRevisions target rest).map (fun l => revision :: l)
      | _ =>
        Except.error (Err.msg ("unable to extract revision from " ++ f.name ++ " due to incorrect format"))

/-- `findPreviousRevision` over a directory listing: fewer than two
collected revisions is "not found" (`none`), otherwise the
second-largest element of the ascending sort, exactly as
`sort.IntSlice(allRevisions).Sort(); allRevisions[len(allRevisions)-2]`
(over a linear order the ascending sorted permutation is a unique list,
so `List.insertionSort` models Go's in-place sort exactly). -/
def findPreviousRevision (target : String) (listing : List FileInfo) :
    Except Err (Option Int) :=
  match collectRevisions target listing with
  | Except.error e => Except.error e
  | Except.ok allRevisions =>
    if h : allRevisions.length < 2 then Except.ok Option.none
    else
      Except.ok (some ((allRevisions.insertionSort (· ≤ ·)).get
        ⟨allRevisions.length - 2, by rw [List.length_insertionSort]; omega⟩))

/-- `createLastKnowGoodRevisionFor`: in strict mode first remove an
existing pointer (surfacing a directory at the pointer path as an
error), then create the symlink to the revisioned manifest. -/
def StartupMonitor.createLastKnowGoodRevisionFor (sm : StartupMonitor) (fs : FS)
    (revision : Int) (strict : Bool) : OpResult :=
  let revisionedTargetManifestPath := sm.targetManifestPathFor revision
  let dst := sm.lastKnownGoodManifestDstPath
  let step0 : OpResult :=
    if strict then
      match fileExists fs dst with
      | Except.error e => ⟨fs, [], Except.error e⟩
      | Except.ok true =>
        match fs.remove dst with
        | Except.error e => ⟨fs, [MutOp.remove dst], Except.error e⟩
        | Except.ok fs₁ => ⟨fs₁, [MutOp.remove dst], Except.ok ()⟩
      | Except.ok false => ⟨fs, [], Except.ok ()⟩
    else ⟨fs, [], Except.ok ()⟩
  match step0 with
  | ⟨fs₁, tr, Except.error e⟩ => ⟨fs₁, tr, Except.error e⟩
  | ⟨fs₁, tr, Except.ok _⟩ =>
    match fs₁.symlink revisionedTargetManifestPath dst with
    | Except.error _ =>
      ⟨fs₁, tr ++ [MutOp.symlink revisionedTargetManifestPath dst],
        Except.error (Err.msg ("failed to create a symbolic link " ++ dst ++ " for " ++ revisionedTargetManifestPath))⟩
    | Except.ok fs₂ =>
      ⟨fs₂, tr ++ [MutOp.symlink revisionedTargetManifestPath dst], Except.ok ()⟩

/-- `createLastKnowGoodRevisionAndDestroy`: promote the pinned revision
(strict mode), then remove the Self-Marker; the result of that `Remove`
is returned as is. -/
def StartupMonitor.createLastKnowGoodRevisionAndDestroy (sm : StartupMonitor) (fs : FS) :
    OpResult :=
  match sm.createLastKnowGoodRevisionFor fs sm.revision true with
  | ⟨fs₁, tr, Except.error e⟩ => ⟨fs₁, tr, Except.error e⟩
  | ⟨fs₁, tr, Except.ok _⟩ =>
    match fs₁.remove sm.selfMarkerPath with
    | Except.error e => ⟨fs₁, tr ++ [MutOp.remove sm.selfMarkerPath], Except.error e⟩
    | Except.ok fs₂ => ⟨fs₂, tr ++ [MutOp.remove sm.selfMarkerPath], Except.ok ()⟩

/-- The annotation and UID stamping applied to the last-known-good pod
before it is republished (startup_monitor.go lines 190-198): initialise
a nil annotations map, record the pinned revision under the
`fallback-for-revision` key and overwrite the UID with the freshly
generated one. -/
def stampedPod (sm : StartupMonitor) (lastKnownGoodPod : Pod) (newUID : Nat) : Pod :=
  let annotations : List (String × String) :=
    match lastKnownGoodPod.annotations with
    | Option.none => []
    | some a => a
  { lastKnownGoodPod with
    annotations := some (insertAssoc annotations fallbackForRevisionKey (toString sm.revision)),
    uid := newUID }

/-- The tail of `fallbackToPreviousRevision` (startup_monitor.go lines
186-215): read the pod behind the Last-Known-Good Pointer, stamp it
(`stampedPod`), remove the Active Manifest (tolerating absence) and
write the stamped pod there.  `tr` is the trace accumulated so far. -/
def StartupMonitor.fallbackAnnotateAndCopy (sm : StartupMonitor) (fs : FS)
    (tr : List MutOp) (newUID : Nat) : OpResult :=
  match readTargetPod fs sm.lastKnownGoodManifestDstPath with
  | Except.error e => ⟨fs, tr, Except.error e⟩
  | Except.ok lastKnownGoodPod =>
    let stamped : Pod := stampedPod sm lastKnownGoodPod newUID
    let rootPath := sm.rootTargetManifestPath
    let afterRemove : Except Err FS :=
      match fs.remove rootPath with
      | Except.ok fs₁ => Except.ok fs₁
      | Except.error Err.notExist => Except.ok fs
      | Except.error e => Except.error e
    match afterRemove with
    | Except.error e => ⟨fs, tr ++ [MutOp.remove rootPath], Except.error e⟩
    | Except.ok fs₁ =>
      match fs₁.writeFile rootPath (Content.pod stamped) with
      | Except.error e =>
        ⟨fs₁, tr ++ [MutOp.remove rootPath, MutOp.write rootPath], Except.error e⟩
      | Except.ok fs₂ =>
        ⟨fs₂, tr ++ [MutOp.remove rootPath, MutOp.write rootPath], Except.ok ()⟩

/-- `fallbackToPreviousRevision`: if no Last-Known-Good Pointer exists,
locate a previous revision (dead ends return without error), create the
pointer for it (non-strict), then annotate and republish the pointed-to
manifest as the Active Manifest. -/
def StartupMonitor.fallbackToPreviousRevision (sm : StartupMonitor) (fs : FS)
    (newUID : Nat) : OpResult :=
  match fileExists fs sm.lastKnownGoodManifestDstPath with
  | Except.error e => ⟨fs, [], Except.error e⟩
  | Except.ok lastKnownExists =>
    if lastKnownExists then
      sm.fallbackAnnotateAndCopy fs [] newUID
    else
      match findPreviousRevision sm.targetName fs.listing with
      | Except.error e => ⟨fs, [], Except.error e⟩
      | Except.ok Option.none => ⟨fs, [], Except.ok ()⟩
      | Except.ok (some prevRev) =>
        match fileExists fs (sm.targetManifestPathFor prevRev) with
        | Except.error e => ⟨fs, [], Except.error e⟩
        | Except.ok false => ⟨fs, [], Except.ok ()⟩
        | Except.ok true =>
          match sm.createLastKnowGoodRevisionFor fs prevRev false with
          | ⟨fs₁, tr, Except.error e⟩ => ⟨fs₁, tr, Except.error e⟩
          | ⟨fs₁, tr, Except.ok _⟩ => sm.fallbackAnnotateAndCopy fs₁ tr newUID

/-- The outcome of one `sync` tick: the updated in-memory state, the
filesystem, the trace of mutating calls, which branch acted, and the
returned error. -/
structure SyncResult where
  sm : StartupMonitor
  fs : FS
  trace : List MutOp
  action : Action
  res : Except Err Unit
deriving DecidableEq, Repr

/-- The lazy timer start inside `sync`: stamp `monitorTimeStamp = time.Now()`
if it is still the zero value. -/
def StartupMonitor.stampTime (sm : StartupMonitor) (now : Nat) : StartupMonitor :=
  match sm.monitorTimeStamp with
  | Option.none => { sm with monitorTimeStamp := some now }
  | some _ => sm

/-- `sync`: one tick.  The injected health predicate's current answer,
the wall clock, and the UID `uuid.NewUUID` would produce are passed in
by the environment. -/
def StartupMonitor.sync (sm : StartupMonitor) (fs : FS) (isTargetHealthy : Bool)
    (now : Nat) (newUID : Nat) : SyncResult :=
  match sm.loadRootTargetPodAndExtractRevision fs with
  | Except.error e => ⟨sm, fs, [], Action.none, Except.error e⟩
  | Except.ok currentTargetRevision =>
    if sm.revision ≠ currentTargetRevision then
      ⟨sm, fs, [], Action.none, Except.ok ()⟩
    else
      let sm₁ : StartupMonitor := sm.stampTime now
      if isTargetHealthy then
        let r := sm₁.createLastKnowGoodRevisionAndDestroy fs
        ⟨sm₁, r.fs, r.trace, Action.promoted, r.res⟩
      else if now > sm₁.monitorTimeStamp.getD 0 + sm₁.timeout then
        -- monitorTimeStamp is necessarily `some` here, so `getD 0` never defaults
        let r := sm₁.fallbackToPreviousRevision fs newUID
        ⟨sm₁, r.fs, r.trace, Action.fellBack, r.res⟩
      else
        ⟨sm₁, fs, [], Action.none, Except.ok ()⟩

/-!  Concrete fixtures used by witnesses and counterexamples. -/

/-- A monitor pinned to revision 8 for target `kas`. -/
def fxSM : StartupMonitor :=
  { probeInterval := 1, timeout := 300, revision := 8, targetName := "kas",
    manifestsPath := "/m", staticPodResourcesPath := "/s", monitorTimeStamp := Option.none }

def fxPod8 : Pod :=
  { name := "kas", labels := [("revision", "8")], annotations := Option.none, uid := 11 }

def fxPod9 : Pod :=
  { name := "kas", labels := [("revision", "9")], annotations := Option.none, uid := 11 }

def fxPod7 : Pod :=
  { name := "kas", labels := [("revision", "7")], annotations := some [("a", "b")], uid := 42 }

def fxPod7NilAnn : Pod :=
  { name := "kas", labels := [("revision", "7")], annotations := Option.none, uid := 42 }

/-- Active Manifest at revision 8, revisioned manifest for 8, Self-Marker present. -/
def fxFSMatch : FS :=
  ⟨[("/m/kas-pod.yaml", Node.file (Content.pod fxPod8)),
    ("/s/kas-pod-8/kas-pod.yaml", Node.file (Content.pod fxPod8)),
    ("/m/kas-startup-monitor.yaml", Node.file Content.malformed)], []⟩

/-- Active Manifest labelled revision 9 while the monitor is pinned to 8. -/
def fxFSMismatch : FS :=
  ⟨[("/m/kas-pod.yaml", Node.file (Content.pod fxPod9))], []⟩

/-- A Last-Known-Good Pointer resolving to the revision-7 manifest. -/
def fxFSPointer : FS :=
  ⟨[("/m/kas-pod.yaml", Node.file (Content.pod fxPod8)),
    ("/s/kas-pod-7/kas-pod.yaml", Node.file (Content.pod fxPod7)),
    ("/s/kas-last-known-good", Node.symlink "/s/kas-pod-7/kas-pod.yaml")], []⟩

/-- Like `fxFSPointer` but the pointed-to pod has a nil annotations map. -/
def fxFSPointerNilAnn : FS :=
  ⟨[("/m/kas-pod.yaml", Node.file (Content.pod fxPod8)),
    ("/s/kas-pod-7/kas-pod.yaml", Node.file (Content.pod fxPod7NilAnn)),
    ("/s/kas-last-known-good", Node.symlink "/s/kas-pod-7/kas-pod.yaml")], []⟩

/-- No pointer, and only one qualifying revision directory. -/
def fxFSDeadEnd : FS :=
  ⟨[("/m/kas-pod.yaml", Node.file (Content.pod fxPod8))], [⟨"kas-pod-7", true⟩]⟩

/-- The Last-Known-Good Pointer path is a directory. -/
def fxFSDirPointer : FS :=
  ⟨[("/s/kas-last-known-good", Node.dir)], []⟩

/-- The Revision Locator example listing: directories for revisions 7, 12
and 9, a plain file whose name matches, and a non-matching directory. -/
def fxListing : List FileInfo :=
  [⟨"kube-apiserver-pod-7", true⟩, ⟨"kube-apiserver-pod-12", true⟩,
   ⟨"kube-apiserver-pod-9", false⟩, ⟨"kube-apiserver-pod-9", true⟩, ⟨"other", true⟩]

/-- A listing with a non-numeric revision suffix. -/
def fxListingFF : List FileInfo :=
  [⟨"kube-apiserver-pod-FF", true⟩, ⟨"kube-apiserver-pod-7", true⟩, ⟨"kube-apiserver-pod-9", true⟩]

/-- A listing with a matching directory name lacking the `-pod-` separator. -/
def fxListingNoSep : List FileInfo :=
  [⟨"kube-apiserver-weird", true⟩, ⟨"kube-apiserver-pod-7", true⟩, ⟨"kube-apiserver-pod-9", true⟩]

/-!  Theorems.  Each claim of the specification is settled by one theorem
(plus a witness at concrete inputs when the theorem has hypotheses). -/

/-- `stampTime` does not change the timeout. -/
theorem stampTime_timeout (sm : StartupMonitor) (now : Nat) :
    (sm.stampTime now).timeout = sm.timeout := by
  unfold StartupMonitor.stampTime
  cases sm.monitorTimeStamp <;> rfl

/-- A found occurrence index leaves room for the separator. -/
theorem firstOcc_bound (sep : List Char) (hsep : sep ≠ []) :
    ∀ (s : List Char) (i : Nat), firstOcc s sep = some i → i + sep.length ≤ s.length := by
  intro s
  induction s with
  | nil =>
    intro i h
    unfold firstOcc at h
    rcases hp : sep.isPrefixOf ([] : List Char) with _ | _
    · rw [hp] at h; simp at h
    · have hpre := List.isPrefixOf_iff_prefix.mp hp
      have hlen := List.IsPrefix.length_le hpre
      simp at hlen
      exact absurd hlen hsep
  | cons c t ih =>
    intro i h
    unfold firstOcc at h
    by_cases hp : sep.isPrefixOf (c :: t) = true
    · rw [if_pos hp] at h
      cases h
      have := List.IsPrefix.length_le (List.isPrefixOf_iff_prefix.mp hp)
      simpa using this
    · rw [if_neg hp] at h
      simp only [Option.map_eq_some'] at h
      obtain ⟨j, hj, hji⟩ := h
      have := ih j hj
      simp [← hji, Nat.succ_le_succ_iff]
      omega

/-- `goSplitCore` is fuel-insensitive once the fuel exceeds the input
length, which `goSplit` always supplies: the fuel is an implementation
device for kernel reducibility, not part of the semantics. -/
theorem goSplitCore_fuel_irrelevant (sep : List Char) (hsep : sep ≠ []) :
    ∀ (fuel₁ fuel₂ : Nat) (s : List Char), s.length < fuel₁ → s.length < fuel₂ →
      goSplitCore sep fuel₁ s = goSplitCore sep fuel₂ s := by
  intro fuel₁
  induction fuel₁ with
  | zero =>
    intro fuel₂ s h₁
    omega
  | succ n ih =>
    intro fuel₂ s h₁ h₂
    cases fuel₂ with
    | zero => omega
    | succ m =>
      simp only [goSplitCore, if_neg hsep]
      cases hocc : firstOcc s sep with
      | none => rfl
      | some i =>
        have hb := firstOcc_bound sep hsep s i hocc
        have hpos : 0 < sep.length := List.length_pos.mpr hsep
        have hlt : (s.drop (i + sep.length)).length < s.length := by
          rw [List.length_drop]
          omega
        show s.take i :: goSplitCore sep n (s.drop (i + sep.length))
            = s.take i :: goSplitCore sep m (s.drop (i + sep.length))
        rw [ih m (s.drop (i + sep.length)) (by omega) (by omega)]

/-- Filtering out key `p` removes every hit of `p`. -/
theorem find?_filterOut_self (es : List (String × Node)) (p : String) :
    (es.filter (fun e => !(e.1 == p))).find? (fun e => e.1 == p) = Option.none := by
  apply List.find?_eq_none.mpr
  intro x hx
  have hmem := List.of_mem_filter hx
  simpa using hmem

/-- Filtering out key `p` does not disturb lookups of a different key. -/
theorem find?_filterOut_ne (es : List (String × Node)) (p q : String) (h : q ≠ p) :
    (es.filter (fun e => !(e.1 == p))).find? (fun e => e.1 == q) =
      es.find? (fun e => e.1 == q) := by
  induction es with
  | nil => rfl
  | cons e t ih =>
    by_cases h1 : e.1 = p
    · have hbp : (e.1 == p) = true := by simp [h1]
      have hbq : (e.1 == q) = false := by
        apply beq_eq_false_iff_ne.mpr
        rw [h1]
        exact fun hpq => h hpq.symm
      simp [List.filter_cons, hbp, hbq, ih, List.find?]
    · have hbp : (e.1 == p) = false := beq_eq_false_iff_ne.mpr h1
      by_cases h2 : e.1 = q
      · have hbq : (e.1 == q) = true := by simp [h2]
        simp [List.filter_cons, hbp, List.find?, hbq]
      · have hbq : (e.1 == q) = false := beq_eq_false_iff_ne.mpr h2
        simp [List.filter_cons, hbp, List.find?, hbq, ih]

/-- If a key is absent, filtering it out is the identity. -/
theorem filter_eq_self_of_find?_none (es : List (String × Node)) (p : String)
    (h : es.find? (fun e => e.1 == p) = Option.none) :
    es.filter (fun e => !(e.1 == p)) = es := by
  apply List.filter_eq_self.mpr
  intro a ha
  have := List.find?_eq_none.mp h a ha
  simpa using this

/-- `FS.lookup` is `none` exactly when the underlying `find?` is. -/
theorem lookup_none_iff (fs : FS) (p : String) :
    fs.lookup p = Option.none ↔
      fs.entries.find? (fun e => e.1 == p) = Option.none := by
  unfold FS.lookup
  cases fs.entries.find? (fun e => e.1 == p) <;> simp

/-- Inserting a key makes it the value a subsequent lookup returns. -/
theorem lookupAssoc_insertAssoc (l : List (String × String)) (k v : String) :
    lookupAssoc (insertAssoc l k v) k = some v := by
  unfold lookupAssoc insertAssoc
  rw [List.find?_cons_of_pos _ (by simp)]

/-- The annotate-and-copy tail of the Fallback Engine, when the pointer
resolves to a readable well-formed pod: it removes the Active Manifest
key, appends the stamped pod there, records exactly a remove followed by
a write, and succeeds — whether or not an Active Manifest existed. -/
theorem fallbackAnnotateAndCopy_ok (sm : StartupMonitor) (fs : FS) (tr : List MutOp)
    (newUID : Nat) (pod : Pod)
    (hread : readTargetPod fs sm.lastKnownGoodManifestDstPath = Except.ok pod) :
    sm.fallbackAnnotateAndCopy fs tr newUID =
      ⟨⟨fs.entries.filter (fun e => !(e.1 == sm.rootTargetManifestPath)) ++
          [(sm.rootTargetManifestPath, Node.file (Content.pod (stampedPod sm pod newUID)))],
        fs.listing⟩,
       tr ++ [MutOp.remove sm.rootTargetManifestPath, MutOp.write sm.rootTargetManifestPath],
       Except.ok ()⟩ := by
  cases hfind : fs.entries.find? (fun e => e.1 == sm.rootTargetManifestPath) with
  | none =>
    have hfilter := filter_eq_self_of_find?_none fs.entries sm.rootTargetManifestPath hfind
    simp [StartupMonitor.fallbackAnnotateAndCopy, hread, FS.remove, FS.writeFile, FS.lookup,
      hfind, hfilter]
  | some e0 =>
    have hfind₁ : (fs.entries.filter
        (fun e => !(e.1 == sm.rootTargetManifestPath))).find?
          (fun e => e.1 == sm.rootTargetManifestPath) = Option.none :=
      find?_filterOut_self fs.entries sm.rootTargetManifestPath
    simp [StartupMonitor.fallbackAnnotateAndCopy, hread, FS.remove, FS.writeFile, FS.lookup,
      hfind, hfind₁]

/-- C3: when the Last-Known-Good Pointer exists and resolves to a
readable, well-formed manifest, fallback succeeds, first removing the
Active Manifest (tolerating its absence) and then writing it; the
written pod carries the `fallback-for-revision` annotation valued with
the pinned revision's decimal string, and a freshly generated UID which
(by the UUID generator's uniqueness contract, hypothesis `hfresh`)
differs from the source pod's UID. -/
theorem fallback_pointerExists_republishes (sm : StartupMonitor) (fs : FS)
    (newUID : Nat) (pod : Pod)
    (hptr : fileExists fs sm.lastKnownGoodManifestDstPath = Except.ok true)
    (hread : readTargetPod fs sm.lastKnownGoodManifestDstPath = Except.ok pod)
    (hfresh : newUID ≠ pod.uid) :
    (sm.fallbackToPreviousRevision fs newUID).res = Except.ok () ∧
    (sm.fallbackToPreviousRevision fs newUID).trace =
      [MutOp.remove sm.rootTargetManifestPath, MutOp.write sm.rootTargetManifestPath] ∧
    (sm.fallbackToPreviousRevision fs newUID).fs.lookup sm.rootTargetManifestPath =
      some (Node.file (Content.pod (stampedPod sm pod newUID))) ∧
    lookupAssoc ((stampedPod sm pod newUID).annotations.getD []) fallbackForRevisionKey =
      some (toString sm.revision) ∧
    (stampedPod sm pod newUID).uid = newUID ∧
    (stampedPod sm pod newUID).uid ≠ pod.uid := by
  have hfb : sm.fallbackToPreviousRevision fs newUID =
      sm.fallbackAnnotateAndCopy fs [] newUID := by
    unfold StartupMonitor.fallbackToPreviousRevision
    rw [hptr]
    rfl
  rw [hfb, fallbackAnnotateAndCopy_ok sm fs [] newUID pod hread]
  refine ⟨rfl, by simp, ?_, ?_, rfl, hfresh⟩
  · unfold FS.lookup
    rw [List.find?_append, find?_filterOut_self]
    simp [List.find?]
  · exact lookupAssoc_insertAssoc _ _ _

theorem fallback_pointerExists_republishes_witness :
    fileExists fxFSPointer fxSM.lastKnownGoodManifestDstPath = Except.ok true ∧
    readTargetPod fxFSPointer fxSM.lastKnownGoodManifestDstPath = Except.ok fxPod7 ∧
    (99 : Nat) ≠ fxPod7.uid ∧
    ((fxSM.fallbackToPreviousRevision fxFSPointer 99).res = Except.ok () ∧
     (fxSM.fallbackToPreviousRevision fxFSPointer 99).trace =
       [MutOp.remove fxSM.rootTargetManifestPath, MutOp.write fxSM.rootTargetManifestPath] ∧
     (fxSM.fallbackToPreviousRevision fxFSPointer 99).fs.lookup fxSM.rootTargetManifestPath =
       some (Node.file (Content.pod (stampedPod fxSM fxPod7 99))) ∧
     lookupAssoc ((stampedPod fxSM fxPod7 99).annotations.getD []) fallbackForRevisionKey =
       some (toString fxSM.revision) ∧
     (stampedPod fxSM fxPod7 99).uid = 99 ∧
     (stampedPod fxSM fxPod7 99).uid ≠ fxPod7.uid) :=
  ⟨by decide, by decide, by decide,
    fallback_pointerExists_republishes fxSM fxFSPointer 99 fxPod7
      (by decide) (by decide) (by decide)⟩

/-- C10: a nil annotations map on the last-known-good pod does not break
fallback: the map is initialised and the written Active Manifest still
carries the `fallback-for-revision` annotation. -/
theorem fallback_nilAnnotations_still_annotated (sm : StartupMonitor) (fs : FS)
    (newUID : Nat) (pod : Pod)
    (hptr : fileExists fs sm.lastKnownGoodManifestDstPath = Except.ok true)
    (hread : readTargetPod fs sm.lastKnownGoodManifestDstPath = Except.ok pod)
    (hnil : pod.annotations = Option.none) :
    (sm.fallbackToPreviousRevision fs newUID).res = Except.ok () ∧
    (sm.fallbackToPreviousRevision fs newUID).fs.lookup sm.rootTargetManifestPath =
      some (Node.file (Content.pod (stampedPod sm pod newUID))) ∧
    (stampedPod sm pod newUID).annotations =
      some [(fallbackForRevisionKey, toString sm.revision)] ∧
    lookupAssoc ((stampedPod sm pod newUID).annotations.getD []) fallbackForRevisionKey =
      some (toString sm.revision) := by
  have hfb : sm.fallbackToPreviousRevision fs newUID =
      sm.fallbackAnnotateAndCopy fs [] newUID := by
    unfold StartupMonitor.fallbackToPreviousRevision
    rw [hptr]
    rfl
  rw [hfb, fallbackAnnotateAndCopy_ok sm fs [] newUID pod hread]
  refine ⟨rfl, ?_, ?_, ?_⟩
  · unfold FS.lookup
    rw [List.find?_append, find?_filterOut_self]
    simp [List.find?]
  · unfold stampedPod insertAssoc
    rw [hnil]
    rfl
  · exact lookupAssoc_insertAssoc _ _ _

theorem fallback_nilAnnotations_still_annotated_witness :
    fileExists fxFSPointerNilAnn fxSM.lastKnownGoodManifestDstPath = Except.ok true ∧
    readTargetPod fxFSPointerNilAnn fxSM.lastKnownGoodManifestDstPath = Except.ok fxPod7NilAnn ∧
    fxPod7NilAnn.annotations = Option.none ∧
    ((fxSM.fallbackToPreviousRevision fxFSPointerNilAnn 99).res = Except.ok () ∧
     (fxSM.fallbackToPreviousRevision fxFSPointerNilAnn 99).fs.lookup fxSM.rootTargetManifestPath =
       some (Node.file (Content.pod (stampedPod fxSM fxPod7NilAnn 99))) ∧
     (stampedPod fxSM fxPod7NilAnn 99).annotations =
       some [(fallbackForRevisionKey, toString fxSM.revision)] ∧
     lookupAssoc ((stampedPod fxSM fxPod7NilAnn 99).annotations.getD []) fallbackForRevisionKey =
       some (toString fxSM.revision)) :=
  ⟨by decide, by decide, by decide,
    fallback_nilAnnotations_still_annotated fxSM fxFSPointerNilAnn 99 fxPod7NilAnn
      (by decide) (by decide) (by decide)⟩

/-- C1: on a tick whose Active Manifest parses to a revision different
from the pinned one, `sync` returns without error, performs no mutating
filesystem call, leaves the filesystem unchanged and leaves the
in-memory state (including `monitorTimeStamp`) unchanged. -/
theorem sync_revisionMismatch_is_noop (sm : StartupMonitor) (fs : FS)
    (isTargetHealthy : Bool) (now newUID : Nat) (r : Int)
    (hload : sm.loadRootTargetPodAndExtractRevision fs = Except.ok r)
    (hne : r ≠ sm.revision) :
    sm.sync fs isTargetHealthy now newUID =
      { sm := sm, fs := fs, trace := [], action := Action.none, res := Except.ok () } := by
  unfold StartupMonitor.sync
  rw [hload]
  simp only []
  rw [if_pos (Ne.symm hne)]

theorem sync_revisionMismatch_is_noop_witness :
    fxSM.loadRootTargetPodAndExtractRevision fxFSMismatch = Except.ok 9 ∧
    (9 : Int) ≠ fxSM.revision ∧
    fxSM.sync fxFSMismatch true 0 99 =
      { sm := fxSM, fs := fxFSMismatch, trace := [], action := Action.none, res := Except.ok () } :=
  ⟨by decide, by decide,
    sync_revisionMismatch_is_noop fxSM fxFSMismatch true 0 99 9 (by decide) (by decide)⟩

/-- C2: on a revision-matching tick the health predicate is consulted
before the timeout check: a healthy target makes `sync` run exactly the
promote-and-retire procedure (never the Fallback Engine, whatever the
clock says), and the Fallback Engine runs exactly when the target is
unhealthy and `now` is strictly past `monitorTimeStamp + timeout`. -/
theorem sync_health_checked_before_timeout (sm : StartupMonitor) (fs : FS)
    (healthy : Bool) (now newUID : Nat)
    (hload : sm.loadRootTargetPodAndExtractRevision fs = Except.ok sm.revision) :
    (healthy = true →
      sm.sync fs healthy now newUID =
        { sm := sm.stampTime now,
          fs := ((sm.stampTime now).createLastKnowGoodRevisionAndDestroy fs).fs,
          trace := ((sm.stampTime now).createLastKnowGoodRevisionAndDestroy fs).trace,
          action := Action.promoted,
          res := ((sm.stampTime now).createLastKnowGoodRevisionAndDestroy fs).res }) ∧
    ((sm.sync fs healthy now newUID).action = Action.fellBack ↔
      (healthy = false ∧ now > (sm.stampTime now).monitorTimeStamp.getD 0 + sm.timeout)) ∧
    (healthy = false → now > (sm.stampTime now).monitorTimeStamp.getD 0 + sm.timeout →
      sm.sync fs healthy now newUID =
        { sm := sm.stampTime now,
          fs := ((sm.stampTime now).fallbackToPreviousRevision fs newUID).fs,
          trace := ((sm.stampTime now).fallbackToPreviousRevision fs newUID).trace,
          action := Action.fellBack,
          res := ((sm.stampTime now).fallbackToPreviousRevision fs newUID).res }) := by
  have hts := stampTime_timeout sm now
  refine ⟨?_, ?_, ?_⟩
  · intro hh
    subst hh
    simp [StartupMonitor.sync, hload]
  · cases healthy with
    | true => simp [StartupMonitor.sync, hload]
    | false =>
      by_cases hgt : now > (sm.stampTime now).monitorTimeStamp.getD 0 + sm.timeout
      · simp [StartupMonitor.sync, hload, hts, hgt]
      · simp [StartupMonitor.sync, hload, hts, hgt]
  · intro hh hgt
    subst hh
    simp [StartupMonitor.sync, hload, hts, hgt]

theorem sync_health_checked_before_timeout_witness :
    fxSM.loadRootTargetPodAndExtractRevision fxFSMatch = Except.ok fxSM.revision ∧
    ((true = true →
      fxSM.sync fxFSMatch true 0 99 =
        { sm := fxSM.stampTime 0,
          fs := ((fxSM.stampTime 0).createLastKnowGoodRevisionAndDestroy fxFSMatch).fs,
          trace := ((fxSM.stampTime 0).createLastKnowGoodRevisionAndDestroy fxFSMatch).trace,
          action := Action.promoted,
          res := ((fxSM.stampTime 0).createLastKnowGoodRevisionAndDestroy fxFSMatch).res }) ∧
    ((fxSM.sync fxFSMatch true 0 99).action = Action.fellBack ↔
      (true = false ∧ 0 > (fxSM.stampTime 0).monitorTimeStamp.getD 0 + fxSM.timeout)) ∧
    (true = false → 0 > (fxSM.stampTime 0).monitorTimeStamp.getD 0 + fxSM.timeout →
      fxSM.sync fxFSMatch true 0 99 =
        { sm := fxSM.stampTime 0,
          fs := ((fxSM.stampTime 0).fallbackToPreviousRevision fxFSMatch 99).fs,
          trace := ((fxSM.stampTime 0).fallbackToPreviousRevision fxFSMatch 99).trace,
          action := Action.fellBack,
          res := ((fxSM.stampTime 0).fallbackToPreviousRevision fxFSMatch 99).res })) :=
  ⟨by decide, sync_health_checked_before_timeout fxSM fxFSMatch true 0 99 (by decide)⟩

/-- C9: when the Last-Known-Good Pointer path stats as a directory, both
promote-and-retire and the Fallback Engine return an error with no
mutating filesystem call attempted and the filesystem unchanged. -/
theorem lkgPointerDirectory_errors_without_mutation (sm : StartupMonitor) (fs : FS)
    (newUID : Nat)
    (hdir : fs.resolve sm.lastKnownGoodManifestDstPath = some Node.dir) :
    sm.createLastKnowGoodRevisionAndDestroy fs =
      ⟨fs, [], Except.error (Err.msg ("the provided path " ++ sm.lastKnownGoodManifestDstPath ++ " is incorrect and points to a directory"))⟩ ∧
    sm.fallbackToPreviousRevision fs newUID =
      ⟨fs, [], Except.error (Err.msg ("the provided path " ++ sm.lastKnownGoodManifestDstPath ++ " is incorrect and points to a directory"))⟩ := by
  have hfe : fileExists fs sm.lastKnownGoodManifestDstPath =
      Except.error (Err.msg ("the provided path " ++ sm.lastKnownGoodManifestDstPath ++ " is incorrect and points to a directory")) := by
    unfold fileExists FS.stat
    rw [hdir]
    rfl
  constructor
  · unfold StartupMonitor.createLastKnowGoodRevisionAndDestroy
      StartupMonitor.createLastKnowGoodRevisionFor
    simp [hfe]
  · unfold StartupMonitor.fallbackToPreviousRevision
    simp [hfe]

theorem lkgPointerDirectory_errors_without_mutation_witness :
    fxFSDirPointer.resolve fxSM.lastKnownGoodManifestDstPath = some Node.dir ∧
    fxSM.createLastKnowGoodRevisionAndDestroy fxFSDirPointer =
      ⟨fxFSDirPointer, [], Except.error (Err.msg ("the provided path " ++ fxSM.lastKnownGoodManifestDstPath ++ " is incorrect and points to a directory"))⟩ ∧
    fxSM.fallbackToPreviousRevision fxFSDirPointer 99 =
      ⟨fxFSDirPointer, [], Except.error (Err.msg ("the provided path " ++ fxSM.lastKnownGoodManifestDstPath ++ " is incorrect and points to a directory"))⟩ :=
  ⟨by decide,
    (lkgPointerDirectory_errors_without_mutation fxSM fxFSDirPointer 99 (by decide)).1,
    (lkgPointerDirectory_errors_without_mutation fxSM fxFSDirPointer 99 (by decide)).2⟩

/-- C6: with no Last-Known-Good Pointer and either no previous revision
found or its revisioned manifest absent, the Fallback Engine returns
without error, with no mutating call and the filesystem unchanged. -/
theorem fallback_deadEnd_is_noop (sm : StartupMonitor) (fs : FS) (newUID : Nat)
    (hnoptr : fileExists fs sm.lastKnownGoodManifestDstPath = Except.ok false)
    (hdead : findPreviousRevision sm.targetName fs.listing = Except.ok Option.none ∨
      (∃ prevRev, findPreviousRevision sm.targetName fs.listing = Except.ok (some prevRev) ∧
        fileExists fs (sm.targetManifestPathFor prevRev) = Except.ok false)) :
    sm.fallbackToPreviousRevision fs newUID = ⟨fs, [], Except.ok ()⟩ := by
  unfold StartupMonitor.fallbackToPreviousRevision
  rw [hnoptr]
  rcases hdead with h | ⟨prevRev, h₁, h₂⟩
  · simp [h]
  · simp [h₁, h₂]

theorem fallback_deadEnd_is_noop_witness :
    fileExists fxFSDeadEnd fxSM.lastKnownGoodManifestDstPath = Except.ok false ∧
    findPreviousRevision fxSM.targetName fxFSDeadEnd.listing = Except.ok Option.none ∧
    fxSM.fallbackToPreviousRevision fxFSDeadEnd 99 = ⟨fxFSDeadEnd, [], Except.ok ()⟩ :=
  ⟨by decide, by decide,
    fallback_deadEnd_is_noop fxSM fxFSDeadEnd 99 (by decide) (Or.inl (by decide))⟩

/-- C8: for a successfully parsed pod, revision extraction errors exactly
when the `revision` label is missing, empty, not `Atoi`-parseable, or
parses negative; otherwise it returns the parsed non-negative value. -/
theorem extractRevision_error_iff (pod : Pod) :
    ((∃ e, extractRevisionFromPod pod = Except.error e) ↔
      (lookupAssoc pod.labels "revision" = Option.none ∨
       lookupAssoc pod.labels "revision" = some "" ∨
       (∃ s e, lookupAssoc pod.labels "revision" = some s ∧ goAtoi s = Except.error e) ∨
       (∃ s v, lookupAssoc pod.labels "revision" = some s ∧ goAtoi s = Except.ok v ∧ v < 0))) ∧
    (∀ s v, lookupAssoc pod.labels "revision" = some s → goAtoi s = Except.ok v → 0 ≤ v →
      extractRevisionFromPod pod = Except.ok v) := by
  constructor
  · constructor
    · rintro ⟨e, he⟩
      unfold extractRevisionFromPod at he
      split at he
      · rename_i hl
        exact Or.inl hl
      · rename_i s hl
        split at he
        · rename_i hs
          have hse : s = "" := by
            have hd : s.data = [] := List.length_eq_zero.mp hs
            cases s
            simp only at hd
            rw [hd]
          exact Or.inr (Or.inl (hse ▸ hl))
        · rename_i hs
          split at he
          · rename_i e₁ ha
            exact Or.inr (Or.inr (Or.inl ⟨s, e₁, hl, ha⟩))
          · rename_i v ha
            split at he
            · rename_i hv
              exact Or.inr (Or.inr (Or.inr ⟨s, v, hl, ha, hv⟩))
            · cases he
    · intro h
      rcases h with h | h | ⟨s, e, hl, ha⟩ | ⟨s, v, hl, ha, hv⟩
      · exact ⟨Err.msg ("pod " ++ pod.name ++ " doesn't have revision label"),
          by simp [extractRevisionFromPod, h]⟩
      · exact ⟨Err.msg ("empty revision label on " ++ pod.name ++ " pod"),
          by simp [extractRevisionFromPod, h]⟩
      · by_cases hs : s.length = 0
        · exact ⟨Err.msg ("empty revision label on " ++ pod.name ++ " pod"),
            by simp [extractRevisionFromPod, hl, hs]⟩
        · exact ⟨Err.msg ("invalid revision label on pod " ++ pod.name ++ ": " ++ s),
            by simp [extractRevisionFromPod, hl, hs, ha]⟩
      · have hs : ¬ s.length = 0 := by
          intro h0
          have hd : s.data = [] := List.length_eq_zero.mp h0
          unfold goAtoi at ha
          rw [hd] at ha
          cases ha
        exact ⟨Err.msg ("invalid revision label on pod " ++ pod.name ++ ": " ++ s),
          by simp [extractRevisionFromPod, hl, hs, ha, hv]⟩
  · intro s v hl ha hv
    have hs : ¬ s.length = 0 := by
      intro h0
      have hd : s.data = [] := List.length_eq_zero.mp h0
      unfold goAtoi at ha
      rw [hd] at ha
      cases ha
    have hnv : ¬ v < 0 := by omega
    simp [extractRevisionFromPod, hl, hs, ha, hnv]

theorem extractRevision_error_iff_witness :
    lookupAssoc fxPod8.labels "revision" = some "8" ∧
    goAtoi "8" = Except.ok 8 ∧
    extractRevisionFromPod fxPod8 = Except.ok 8 :=
  ⟨by decide, by decide,
    (extractRevision_error_iff fxPod8).2 "8" 8 (by decide) (by decide) (by decide)⟩


/-- C5 counterexample: at a concrete state satisfying the claim's
scenario (pinned revision's manifest present, Self-Marker present, no
intervening change between calls), the first Promote-and-Retire call
succeeds but the second returns an error — refuting "the second
invocation returns without error".  (The filesystem state is
nevertheless reproduced, as the amended theorem shows.) -/
theorem promoteAndRetire_secondCall_errors_cex :
    (fxSM.createLastKnowGoodRevisionAndDestroy fxFSMatch).res = Except.ok () ∧
    (fxSM.createLastKnowGoodRevisionAndDestroy
        (fxSM.createLastKnowGoodRevisionAndDestroy fxFSMatch).fs).fs =
      (fxSM.createLastKnowGoodRevisionAndDestroy fxFSMatch).fs ∧
    (fxSM.createLastKnowGoodRevisionAndDestroy
        (fxSM.createLastKnowGoodRevisionAndDestroy fxFSMatch).fs).res =
      Except.error Err.notExist := by
  decide

/-- C5 (amended): after a successful Promote-and-Retire (pointer present
and targeting the pinned revision's manifest, that manifest readable,
Self-Marker absent), invoking it again reproduces the same filesystem
state (extensionally) — but returns the not-exist error from removing
the already-absent Self-Marker instead of succeeding. -/
theorem promoteAndRetire_idempotent_state_second_errs (sm : StartupMonitor)
    (fs0 fs1 : FS) (tr1 : List MutOp) (c : Content)
    (hrun1 : sm.createLastKnowGoodRevisionAndDestroy fs0 = OpResult.mk fs1 tr1 (Except.ok ()))
    (hlkg : fs1.lookup sm.lastKnownGoodManifestDstPath =
      some (Node.symlink (sm.targetManifestPathFor sm.revision)))
    (hrev : fs1.lookup (sm.targetManifestPathFor sm.revision) = some (Node.file c))
    (hmarker : fs1.lookup sm.selfMarkerPath = Option.none) :
    (sm.createLastKnowGoodRevisionAndDestroy fs1).res = Except.error Err.notExist ∧
    (∀ p, (sm.createLastKnowGoodRevisionAndDestroy fs1).fs.lookup p = fs1.lookup p) ∧
    (sm.createLastKnowGoodRevisionAndDestroy fs1).fs.listing = fs1.listing := by
  have hmne : sm.selfMarkerPath ≠ sm.lastKnownGoodManifestDstPath := by
    intro h
    rw [h] at hmarker
    rw [hmarker] at hlkg
    cases hlkg
  have h1 : fileExists fs1 sm.lastKnownGoodManifestDstPath = Except.ok true := by
    simp [fileExists, FS.stat, FS.resolve, hlkg, hrev]
  have h2 : FS.remove fs1 sm.lastKnownGoodManifestDstPath =
      Except.ok ⟨fs1.entries.filter (fun e => !(e.1 == sm.lastKnownGoodManifestDstPath)),
        fs1.listing⟩ := by
    unfold FS.remove
    rw [hlkg]
  have h3 : FS.symlink
      ⟨fs1.entries.filter (fun e => !(e.1 == sm.lastKnownGoodManifestDstPath)), fs1.listing⟩
      (sm.targetManifestPathFor sm.revision) sm.lastKnownGoodManifestDstPath =
      Except.ok ⟨fs1.entries.filter (fun e => !(e.1 == sm.lastKnownGoodManifestDstPath)) ++
        [(sm.lastKnownGoodManifestDstPath, Node.symlink (sm.targetManifestPathFor sm.revision))],
        fs1.listing⟩ := by
    unfold FS.symlink FS.lookup
    rw [find?_filterOut_self]
  have hmfind : fs1.entries.find? (fun e => e.1 == sm.selfMarkerPath) = Option.none :=
    (lookup_none_iff fs1 sm.selfMarkerPath).mp hmarker
  have hlkb : (sm.lastKnownGoodManifestDstPath == sm.selfMarkerPath) = false :=
    beq_eq_false_iff_ne.mpr (fun h => hmne h.symm)
  have hlook3 : (fs1.entries.filter (fun e => !(e.1 == sm.lastKnownGoodManifestDstPath)) ++
      [(sm.lastKnownGoodManifestDstPath, Node.symlink (sm.targetManifestPathFor sm.revision))]).find?
        (fun e => e.1 == sm.selfMarkerPath) = Option.none := by
    rw [List.find?_append, find?_filterOut_ne _ _ _ hmne, hmfind]
    simp [List.find?, hlkb]
  have h4 : FS.remove
      ⟨fs1.entries.filter (fun e => !(e.1 == sm.lastKnownGoodManifestDstPath)) ++
        [(sm.lastKnownGoodManifestDstPath, Node.symlink (sm.targetManifestPathFor sm.revision))],
        fs1.listing⟩ sm.selfMarkerPath = Except.error Err.notExist := by
    unfold FS.remove FS.lookup
    rw [hlook3]
  have hres : sm.createLastKnowGoodRevisionAndDestroy fs1 =
      ⟨⟨fs1.entries.filter (fun e => !(e.1 == sm.lastKnownGoodManifestDstPath)) ++
          [(sm.lastKnownGoodManifestDstPath, Node.symlink (sm.targetManifestPathFor sm.revision))],
         fs1.listing⟩,
       [MutOp.remove sm.lastKnownGoodManifestDstPath,
        MutOp.symlink (sm.targetManifestPathFor sm.revision) sm.lastKnownGoodManifestDstPath,
        MutOp.remove sm.selfMarkerPath],
       Except.error Err.notExist⟩ := by
    unfold StartupMonitor.createLastKnowGoodRevisionAndDestroy
      StartupMonitor.createLastKnowGoodRevisionFor
    simp [h1, h2, h3, h4]
  rw [hres]
  refine ⟨rfl, ?_, rfl⟩
  intro p
  by_cases hp : p = sm.lastKnownGoodManifestDstPath
  · subst hp
    rw [hlkg]
    unfold FS.lookup
    rw [List.find?_append, find?_filterOut_self]
    simp [List.find?]
  · unfold FS.lookup
    rw [List.find?_append, find?_filterOut_ne _ _ _ hp]
    have hb : (sm.lastKnownGoodManifestDstPath == p) = false :=
      beq_eq_false_iff_ne.mpr (fun h => hp h.symm)
    cases hf : fs1.entries.find? (fun e => e.1 == p) with
    | none => simp [List.find?, hb]
    | some e0 => simp

theorem promoteAndRetire_idempotent_state_second_errs_witness :
    fxSM.createLastKnowGoodRevisionAndDestroy fxFSMatch =
      OpResult.mk (fxSM.createLastKnowGoodRevisionAndDestroy fxFSMatch).fs
        (fxSM.createLastKnowGoodRevisionAndDestroy fxFSMatch).trace (Except.ok ()) ∧
    ((fxSM.createLastKnowGoodRevisionAndDestroy
        (fxSM.createLastKnowGoodRevisionAndDestroy fxFSMatch).fs).res =
      Except.error Err.notExist ∧
     (fxSM.createLastKnowGoodRevisionAndDestroy
        (fxSM.createLastKnowGoodRevisionAndDestroy fxFSMatch).fs).fs.lookup
          fxSM.lastKnownGoodManifestDstPath =
      (fxSM.createLastKnowGoodRevisionAndDestroy fxFSMatch).fs.lookup
          fxSM.lastKnownGoodManifestDstPath ∧
     (fxSM.createLastKnowGoodRevisionAndDestroy
        (fxSM.createLastKnowGoodRevisionAndDestroy fxFSMatch).fs).fs.listing =
      (fxSM.createLastKnowGoodRevisionAndDestroy fxFSMatch).fs.listing) :=
  ⟨by decide,
    (promoteAndRetire_idempotent_state_second_errs fxSM fxFSMatch
      (fxSM.createLastKnowGoodRevisionAndDestroy fxFSMatch).fs
      (fxSM.createLastKnowGoodRevisionAndDestroy fxFSMatch).trace
      (Content.pod fxPod8) (by decide) (by decide) (by decide) (by decide)).1,
    (promoteAndRetire_idempotent_state_second_errs fxSM fxFSMatch
      (fxSM.createLastKnowGoodRevisionAndDestroy fxFSMatch).fs
      (fxSM.createLastKnowGoodRevisionAndDestroy fxFSMatch).trace
      (Content.pod fxPod8) (by decide) (by decide) (by decide) (by decide)).2.1
      fxSM.lastKnownGoodManifestDstPath,
    (promoteAndRetire_idempotent_state_second_errs fxSM fxFSMatch
      (fxSM.createLastKnowGoodRevisionAndDestroy fxFSMatch).fs
      (fxSM.createLastKnowGoodRevisionAndDestroy fxFSMatch).trace
      (Content.pod fxPod8) (by decide) (by decide) (by decide) (by decide)).2.2⟩

/-- If the revision-collecting loop succeeds, every considered entry
(directory with the target prefix) must have split into exactly two
parts with an `Atoi`-parseable suffix. -/
theorem collectRevisions_ok_wellFormed (target : String) :
    ∀ (listing : List FileInfo) (revs : List Int),
      collectRevisions target listing = Except.ok revs →
      ∀ f ∈ listing, f.isDir = true → goStartsWith f.name target = true →
        ∃ pre suf v, goSplit f.name (target ++ "-pod-") = [pre, suf] ∧
          goAtoi suf = Except.ok v := by
  intro listing
  induction listing with
  | nil =>
    intro revs h f hf
    cases hf
  | cons g rest ih =>
    intro revs h f hf hdir hpre
    unfold collectRevisions at h
    rcases List.mem_cons.mp hf with hfg | hfr
    · subst hfg
      rw [if_neg (by simp [hdir]), if_neg (by simp [hpre])] at h
      split at h
      · rename_i pre suf heq
        split at h
        · cases h
        · rename_i v ha
          exact ⟨pre, suf, v, heq, ha⟩
      · cases h
    · by_cases hgdir : g.isDir = true
      · by_cases hgpre : goStartsWith g.name target = true
        · rw [if_neg (by simp [hgdir]), if_neg (by simp [hgpre])] at h
          split at h
          · rename_i pre suf heq
            split at h
            · cases h
            · rename_i v ha
              cases hrest : collectRevisions target rest with
              | error e =>
                rw [hrest] at h
                cases h
              | ok l =>
                exact ih l hrest f hfr hdir hpre
          · cases h
        · rw [if_neg (by simp [hgdir]), if_pos (by simp [hgpre])] at h
          exact ih revs h f hfr hdir hpre
      · rw [if_pos (by simp [hgdir])] at h
        exact ih revs h f hfr hdir hpre

/-- C7: the Revision Locator aborts with an error whenever some listed
directory entry starts with the target name but is malformed — its name
does not split into exactly two parts around `<target>-pod-`, or its
suffix is not `Atoi`-parseable — rather than skipping the entry. -/
theorem findPreviousRevision_malformed_aborts (target : String) (listing : List FileInfo)
    (f : FileInfo) (hmem : f ∈ listing) (hdir : f.isDir = true)
    (hpre : goStartsWith f.name target = true)
    (hbad : (∀ pre suf, goSplit f.name (target ++ "-pod-") ≠ [pre, suf]) ∨
      (∃ pre suf e, goSplit f.name (target ++ "-pod-") = [pre, suf] ∧
        goAtoi suf = Except.error e)) :
    ∃ e, findPreviousRevision target listing = Except.error e := by
  cases hc : collectRevisions target listing with
  | error e =>
    exact ⟨e, by unfold findPreviousRevision; rw [hc]⟩
  | ok revs =>
    exfalso
    obtain ⟨pre, suf, v, hsplit, hatoi⟩ :=
      collectRevisions_ok_wellFormed target listing revs hc f hmem hdir hpre
    rcases hbad with hb | ⟨pre₂, suf₂, e₂, hsp₂, ha₂⟩
    · exact hb pre suf hsplit
    · rw [hsplit] at hsp₂
      have hsuf : suf = suf₂ := by
        have := List.cons.injEq pre [suf] pre₂ [suf₂] ▸ hsp₂
        simp at hsp₂
        exact hsp₂.2
      rw [← hsuf] at ha₂
      rw [hatoi] at ha₂
      cases ha₂

theorem findPreviousRevision_malformed_aborts_witness :
    goSplit "kube-apiserver-pod-FF" ("kube-apiserver" ++ "-pod-") = ["", "FF"] ∧
    goSplit "kube-apiserver-weird" ("kube-apiserver" ++ "-pod-") = ["kube-apiserver-weird"] ∧
    (∃ e, findPreviousRevision "kube-apiserver" fxListingFF = Except.error e) ∧
    (∃ e, findPreviousRevision "kube-apiserver" fxListingNoSep = Except.error e) := by
  have hsingle : goSplit "kube-apiserver-weird" ("kube-apiserver" ++ "-pod-") =
      ["kube-apiserver-weird"] := by decide
  refine ⟨by decide, hsingle, ?_, ?_⟩
  · exact findPreviousRevision_malformed_aborts "kube-apiserver" fxListingFF
      ⟨"kube-apiserver-pod-FF", true⟩ (by decide) (by decide) (by decide)
      (Or.inr ⟨"", "FF", Err.msg "strconv.Atoi: parsing FF: invalid syntax",
        by decide, by decide⟩)
  · exact findPreviousRevision_malformed_aborts "kube-apiserver" fxListingNoSep
      ⟨"kube-apiserver-weird", true⟩ (by decide) (by decide) (by decide)
      (Or.inl (fun pre suf h => by rw [hsingle] at h; simp at h))


/-- The collecting loop ignores entries that are not directories or do
not carry the target prefix: collecting over the qualifying sublist is
the same computation. -/
theorem collectRevisions_filter (target : String) :
    ∀ (listing : List FileInfo),
      collectRevisions target
          (listing.filter (fun f => f.isDir && goStartsWith f.name target)) =
        collectRevisions target listing := by
  intro listing
  induction listing with
  | nil => rfl
  | cons g rest ih =>
    by_cases h1 : g.isDir = true
    · by_cases h2 : goStartsWith g.name target = true
      · rw [List.filter_cons, if_pos (by simp [h1, h2])]
        simp only [collectRevisions, h1, h2, Bool.not_true, Bool.false_eq_true, if_false, ih]
      · have hskip : collectRevisions target (g :: rest) = collectRevisions target rest := by
          simp [collectRevisions, h1, h2]
        rw [List.filter_cons, if_neg (by simp [h2]), hskip]
        exact ih
    · have hd : g.isDir = false := by
        cases hgd : g.isDir
        · rfl
        · exact absurd hgd h1
      have hskip : collectRevisions target (g :: rest) = collectRevisions target rest := by
        simp [collectRevisions, hd]
      rw [List.filter_cons, if_neg (by simp [hd]), hskip]
      exact ih

/-- In an ascending sorted list of length at least two, the element at
index `length - 2` is the second largest: at most one element exceeds
it, and at least two elements are at least it. -/
theorem sorted_get_second_largest (s : List Int) (hs : List.Sorted (· ≤ ·) s)
    (k : Nat) (hidx : k < s.length) (h2 : 2 ≤ s.length) (hk : k = s.length - 2) :
    s.countP (fun x => decide (s.get ⟨k, hidx⟩ < x)) ≤ 1 ∧
    2 ≤ s.countP (fun x => decide (s.get ⟨k, hidx⟩ ≤ x)) := by
  constructor
  · have hA : ∀ x ∈ s.take (s.length - 1),
        (decide (s.get ⟨k, hidx⟩ < x)) = false := by
      intro x hx
      obtain ⟨⟨i, hi⟩, hxe⟩ := List.mem_iff_get.mp hx
      have hitk : i < s.length - 1 := by
        have := hi
        rw [List.length_take] at this
        omega
      have hi' : i < s.length := by omega
      have hig : s.get ⟨i, hi'⟩ = x := by
        rw [← hxe]
        exact List.get_take s hi' hitk
      have hle : s.get ⟨i, hi'⟩ ≤ s.get ⟨k, hidx⟩ := by
        rcases Nat.lt_or_ge i k with hlt | hge
        · exact hs.rel_get_of_lt (Fin.mk_lt_mk.mpr hlt)
        · have : i = k := by omega
          subst this
          exact le_refl _
      rw [decide_eq_false_iff_not]
      rw [← hig]
      exact not_lt.mpr hle
    have htake0 : (s.take (s.length - 1)).countP
        (fun x => decide (s.get ⟨k, hidx⟩ < x)) = 0 := by
      apply List.countP_eq_zero.mpr
      intro a ha
      have hfalse := hA a ha
      rw [decide_eq_false_iff_not] at hfalse
      simpa using hfalse
    have hdrop1 : (s.drop (s.length - 1)).countP
        (fun x => decide (s.get ⟨k, hidx⟩ < x)) ≤ 1 := by
      refine le_trans (List.countP_le_length _) ?_
      rw [List.length_drop]
      omega
    have hcomb := congrArg (List.countP (fun x => decide (s.get ⟨k, hidx⟩ < x)))
      (List.take_append_drop (s.length - 1) s)
    rw [List.countP_append] at hcomb
    omega
  · have hd2 : s.drop k = s.get ⟨k, hidx⟩ :: s.drop (s.length - 1) := by
      rw [List.drop_eq_get_cons hidx]
      have : k + 1 = s.length - 1 := by omega
      rw [this]
    have hlast : s.length - 1 < s.length := by omega
    have hd1 : s.drop (s.length - 1) = [s.get ⟨s.length - 1, hlast⟩] := by
      rw [List.drop_eq_get_cons hlast]
      have : s.length - 1 + 1 = s.length := by omega
      rw [this, List.drop_length]
    have hrel : s.get ⟨k, hidx⟩ ≤ s.get ⟨s.length - 1, hlast⟩ := by
      exact hs.rel_get_of_lt (Fin.mk_lt_mk.mpr (by omega))
    have hdropc : (s.drop k).countP (fun x => decide (s.get ⟨k, hidx⟩ ≤ x)) = 2 := by
      rw [hd2, hd1]
      rw [List.countP_cons_of_pos _ _ (by simp)]
      rw [List.countP_cons_of_pos _ _ (by simpa using hrel)]
      rfl
    have hcomb := congrArg (List.countP (fun x => decide (s.get ⟨k, hidx⟩ ≤ x)))
      (List.take_append_drop k s)
    rw [List.countP_append] at hcomb
    omega

/-- C4: the Revision Locator considers exactly the directory entries
whose name carries the target prefix (dropping the rest changes
nothing); with fewer than two parsed revisions it returns "not found"
without error, and with at least two it returns, with `found = true`,
the second-largest parsed revision in numeric order (at most one parsed
revision exceeds it, at least two are at least it). -/
theorem findPreviousRevision_spec (target : String) (listing : List FileInfo)
    (revs : List Int) (hq : collectRevisions target listing = Except.ok revs) :
    findPreviousRevision target listing =
      findPreviousRevision target
        (listing.filter (fun f => f.isDir && goStartsWith f.name target)) ∧
    (revs.length < 2 → findPreviousRevision target listing = Except.ok Option.none) ∧
    (2 ≤ revs.length → ∃ r, findPreviousRevision target listing = Except.ok (some r) ∧
      r ∈ revs ∧ revs.countP (fun x => decide (r < x)) ≤ 1 ∧
      2 ≤ revs.countP (fun x => decide (r ≤ x))) := by
  refine ⟨?_, ?_, ?_⟩
  · unfold findPreviousRevision
    rw [collectRevisions_filter]
  · intro h
    simp only [findPreviousRevision, hq]
    rw [dif_pos h]
  · intro h2
    have hlen : (revs.insertionSort (· ≤ ·)).length = revs.length :=
      List.length_insertionSort _ _
    have hidx : revs.length - 2 < (revs.insertionSort (· ≤ ·)).length := by omega
    have hsorted : List.Sorted (· ≤ ·) (revs.insertionSort (· ≤ ·)) :=
      List.sorted_insertionSort _ _
    have hperm : (revs.insertionSort (· ≤ ·)).Perm revs := List.perm_insertionSort _ _
    have hsl := sorted_get_second_largest (revs.insertionSort (· ≤ ·)) hsorted
      (revs.length - 2) hidx (by omega) (by omega)
    refine ⟨(revs.insertionSort (· ≤ ·)).get ⟨revs.length - 2, hidx⟩, ?_, ?_, ?_, ?_⟩
    · simp only [findPreviousRevision, hq]
      rw [dif_neg (by omega : ¬ revs.length < 2)]
    · exact hperm.mem_iff.mp (List.get_mem _ _ _)
    · rw [← hperm.countP_eq]
      exact hsl.1
    · rw [← hperm.countP_eq]
      exact hsl.2

theorem findPreviousRevision_spec_witness :
    collectRevisions "kube-apiserver" fxListing = Except.ok [7, 12, 9] ∧
    findPreviousRevision "kube-apiserver" fxListing = Except.ok (some 9) ∧
    (findPreviousRevision "kube-apiserver" fxListing =
       findPreviousRevision "kube-apiserver"
         (fxListing.filter (fun f => f.isDir && goStartsWith f.name "kube-apiserver")) ∧
     (([7, 12, 9] : List Int).length < 2 →
       findPreviousRevision "kube-apiserver" fxListing = Except.ok Option.none) ∧
     (2 ≤ ([7, 12, 9] : List Int).length →
       ∃ r, findPreviousRevision "kube-apiserver" fxListing = Except.ok (some r) ∧
         r ∈ ([7, 12, 9] : List Int) ∧
         ([7, 12, 9] : List Int).countP (fun x => decide (r < x)) ≤ 1 ∧
         2 ≤ ([7, 12, 9] : List Int).countP (fun x => decide (r ≤ x)))) :=
  ⟨by decide, by decide,
    findPreviousRevision_spec "kube-apiserver" fxListing [7, 12, 9] (by decide)⟩

end StartupMonitorModel
